import Mathlib

/-!
Shallow embedding of `generic/originalbuffer/src/originalbufferrestore/imp.rs`
(the `OriginalBufferRestore` element of gst-plugins-rs) and proofs about it.

Buffers, caps, events and metas are modelled as plain inductive data; the
behaviour of the pads' peers (the downstream peer of the `src` pad, the
upstream peer of the `sink` pad) is passed in as explicit function records so
that every push / query result the code observes is an input of the model.
-/

namespace OriginalBufferRestore

/-- Structural descriptor derived from caps: `gst_video::VideoInfo`, of which
the code only reads `width()` and `height()`. -/
structure VideoInfo where
  width : Nat
  height : Nat
deriving DecidableEq, Repr

/-- A caps (format descriptor). `id` stands for the opaque content that the
code only ever compares for equality; `videoInfo` is the result that
`gst_video::VideoInfo::from_caps` would give for these caps (`none` when the
caps have no video decoding). -/
structure Caps where
  id : Nat
  videoInfo : Option VideoInfo
deriving DecidableEq, Repr

/-- `gst::Caps::new_empty()`, the default caps stored in a fresh `CapsState`. -/
def Caps.new_empty : Caps := ⟨0, none⟩

/-- `gst_video::VideoInfo::from_caps(&caps).ok()`. -/
def VideoInfo.from_caps (c : Caps) : Option VideoInfo := c.videoInfo

/-- The `CapsState` struct of `imp.rs`. -/
structure CapsState where
  caps : Caps
  vinfo : Option VideoInfo
deriving DecidableEq, Repr

/-- `impl Default for CapsState`. -/
def CapsState.init : CapsState := ⟨Caps.new_empty, none⟩

/-- The meta tags the code tests with `has_tag`:
`gst::meta::tags::Memory`, `gst::meta::tags::MemoryReference` and
`gst_video::video_meta::tags::Size`. -/
inductive MetaTag
  | Memory
  | MemoryReference
  | Size
deriving DecidableEq, Repr

/-- The meta API type of `OriginalBufferMeta` (`OriginalBufferMeta::meta_api()`),
used by the loop in `sink_chain` to skip the identity meta itself. -/
def originalBufferMetaApi : Nat := 0

/-- A generic meta (annotation) attached to a buffer, as seen through
`iter_meta::<gst::Meta>()`: its API type, its tags, a geometric payload
(the rectangle of e.g. a region-of-interest meta), and whether the meta's
transform function supports the scale / copy transforms (a meta with no
transform support makes `meta.transform(..)` return `Err`). -/
structure Meta where
  api : Nat
  tags : List MetaTag
  x : Nat
  y : Nat
  w : Nat
  h : Nat
  supportsScale : Bool
  supportsCopy : Bool
deriving DecidableEq, Repr

/-- The GStreamer scale transform applied to a meta's geometric payload:
`gst_video_meta_transform_scale` rescales coordinates by
`out_info / in_info` with integer division (as in
`gst_video_region_of_interest_meta`'s transform function). The argument
order matches `VideoMetaTransformScale::new(in_info, out_info)`. -/
def Meta.scale (m : Meta) (inInfo outInfo : VideoInfo) : Meta :=
  { m with
    x := m.x * outInfo.width / inInfo.width
    y := m.y * outInfo.height / inInfo.height
    w := m.w * outInfo.width / inInfo.width
    h := m.h * outInfo.height / inInfo.height }

/-- The original, pre-transform buffer owned by the identity meta. -/
structure OrigBuffer where
  content : List Nat
  pts : Option Nat
  dts : Option Nat
  duration : Option Nat
  flags : Nat
  metas : List Meta
deriving DecidableEq, Repr

/-- Modelled from the spec: the Identity Metadata
(`OriginalBufferMeta`, defined in `originalbuffermeta.rs`, which is not part
of the reviewed sources) owns a copy of the original pre-transform unit and
the format descriptor that unit was produced under; `imp.rs` reads it through
the accessors `original()` and `caps()`. -/
structure OriginalBufferMeta where
  original : OrigBuffer
  caps : Caps
deriving DecidableEq, Repr

/-- A data unit. `metas` are the generic annotations that
`iter_meta::<gst::Meta>()` yields (the identity meta, when attached, also
appears there as an entry whose `api` is `originalBufferMetaApi`); `ometa` is
the typed view `buffer.meta::<OriginalBufferMeta>()`. -/
structure Buffer where
  content : List Nat
  pts : Option Nat
  dts : Option Nat
  duration : Option Nat
  flags : Nat
  metas : List Meta
  ometa : Option OriginalBufferMeta
deriving DecidableEq, Repr

/-- `ometa.original().copy()`: a fresh buffer with the original's content,
timing, flags and metas; the copy does not carry an identity meta. -/
def OrigBuffer.copy (b : OrigBuffer) : Buffer :=
  ⟨b.content, b.pts, b.dts, b.duration, b.flags, b.metas, none⟩

/-- `src.copy_into(dst, BufferCopyFlags::TIMESTAMPS | BufferCopyFlags::FLAGS, ..)`:
overwrites the destination's timing fields and flags with the source's,
leaving content and metas alone. -/
def Buffer.copy_into (src dst : Buffer) : Buffer :=
  { dst with pts := src.pts, dts := src.dts, duration := src.duration, flags := src.flags }

/-- A segment (boundary-range) event, compared and forwarded opaquely. -/
structure SegmentEvent where
  id : Nat
deriving DecidableEq, Repr

/-- The `State` struct of `imp.rs`. -/
structure State where
  sinkpad_caps : CapsState
  meta_caps : CapsState
  sinkpad_segment : Option SegmentEvent
  modified_src_pad_requested : Bool
deriving DecidableEq, Repr

/-- `State::default()` as built at construction and on `PausedToReady`. -/
def State.init : State := ⟨CapsState.init, CapsState.init, none, false⟩

/-- The flow errors the code returns or can receive from a push. -/
inductive FlowError
  | notNegotiated
  | error
  | flushing
  | eos
  | notLinked
deriving DecidableEq, Repr

/-- Result of a chain call / buffer push. -/
inductive FlowRet
  | ok
  | err (e : FlowError)
deriving DecidableEq, Repr

/-- An item pushed on the primary (`src`) pad, in push order. -/
inductive SrcItem
  | capsEvent (c : Caps)
  | segmentEvent (s : SegmentEvent)
  | buffer (b : Buffer)
  | otherEvent (i : Nat)
deriving DecidableEq, Repr

/-- An item pushed on the auxiliary (`modified_src`) pad, in push order. -/
inductive ModItem
  | streamStart (streamId : String)
  | capsEvent (c : Caps)
  | segmentEvent (s : SegmentEvent)
  | buffer (b : Buffer)
  | otherEvent (i : Nat)
deriving DecidableEq, Repr

/-- An opaque query payload, mutated by whoever answers it. -/
structure Query where
  id : Nat
deriving DecidableEq, Repr

/-- A query as seen by `sink_query`: either a custom query carrying a named
structure with an optional embedded `"query"` field and optional `"result"`
field, or any other query kind. -/
inductive QueryKind
  | custom (name : String) (queryField : Option Query) (resultField : Option Bool)
  | other (i : Nat)
deriving DecidableEq, Repr

/-- Result of `sink_query`: the boolean handler result and the (possibly
mutated) query structure. -/
structure QueryOut where
  res : Bool
  query : QueryKind
deriving DecidableEq, Repr

/-- An event travelling upstream through `src_event`; a custom upstream event
carries a named structure, `wrap` being the case where that structure embeds
another event in its `"event"` field. -/
inductive UpEvent
  | reconfigure
  | custom (name : String)
  | wrap (name : String) (inner : UpEvent)
  | other (i : Nat)
deriving DecidableEq, Repr

/-- `event.has_name(s)`: the event has a structure and its name is `s`. -/
def UpEvent.hasName : UpEvent → String → Bool
  | .custom n, s => n == s
  | .wrap n _, s => n == s
  | _, _ => false

/-- `event.type_() == gst::EventType::Reconfigure`. -/
def UpEvent.isReconfigure : UpEvent → Bool
  | .reconfigure => true
  | _ => false

/-- An event arriving on the sink pad, as matched by `sink_event`. -/
inductive SinkEvent
  | caps (c : Caps)
  | segment (s : SegmentEvent)
  | other (i : Nat)
deriving DecidableEq, Repr

/-- Behaviour of the peer reachable through the `src` pad: the result of each
event push, the flow result of each buffer push, the peer's answer to a query
(`peer_query` may mutate the query and returns a bool), and the outcome of
default query handling. -/
structure Downstream where
  acceptCaps : Caps → Bool
  acceptSegment : SegmentEvent → Bool
  acceptOther : Nat → Bool
  bufferRet : Buffer → FlowRet
  peerQuery : Query → Query × Bool
  queryDefault : QueryKind → QueryOut

/-- Behaviour of the upstream peer of the `sink` pad: the result of pushing a
(possibly wrapped) upstream event, and the result of default handling of an
upstream event on the src pad. -/
structure Upstream where
  acceptEvent : UpEvent → Bool
  defaultResult : UpEvent → Bool

/-- Result of `sink_event`: handler result, new state, items pushed on the
primary pad, items pushed on the auxiliary pad. -/
structure EventOut where
  res : Bool
  state : State
  srcItems : List SrcItem
  modItems : List ModItem
deriving DecidableEq, Repr

/-- Result of `sink_chain`: flow result, new state, items pushed on the
primary pad (in order, including rejected pushes that were attempted), items
pushed on the auxiliary pad. -/
structure ChainOut where
  ret : FlowRet
  state : State
  srcItems : List SrcItem
  modItems : List ModItem
deriving DecidableEq, Repr

/-- Result of `src_event`: handler result, the wrapped events pushed upstream
through the sink pad, and the event handed to default handling (if any). -/
structure SrcEventOut where
  res : Bool
  tunneled : List UpEvent
  defaulted : Option UpEvent
deriving DecidableEq, Repr

/-- `OriginalBufferRestore::sink_event`: a caps event is stored into
`sinkpad_caps` (with its derived video info) and re-forwarded to the
auxiliary pad when requested; a segment event is stored into
`sinkpad_segment` (overwriting any pending one) and re-forwarded to the
auxiliary pad when requested; both return `true` without pushing anything on
the primary pad. Any other event gets `gst::Pad::event_default`, which
forwards it to the internally linked pads. -/
def sink_event (ds : Downstream) (st : State) (event : SinkEvent) : EventOut :=
  match event with
  | .caps c =>
      ⟨true,
       { st with sinkpad_caps := ⟨c, VideoInfo.from_caps c⟩ },
       [],
       if st.modified_src_pad_requested then [.capsEvent c] else []⟩
  | .segment s =>
      ⟨true,
       { st with sinkpad_segment := some s },
       [],
       if st.modified_src_pad_requested then [.segmentEvent s] else []⟩
  | .other i =>
      ⟨ds.acceptOther i, st, [.otherEvent i],
       if st.modified_src_pad_requested then [.otherEvent i] else []⟩

/-- The reserved name of the event-tunnel envelope used by `src_event`. -/
def upstreamEventName : String := "gst-original-buffer-forward-upstream-event"

/-- `OriginalBufferRestore::src_event`: a `Reconfigure` event, or an event
already named `upstreamEventName`, is wrapped into a custom upstream event
with structure name `upstreamEventName` and the original event in the
`"event"` field, then pushed on the sink pad (to the latter's upstream peer);
anything else gets default handling. -/
def src_event (us : Upstream) (event : UpEvent) : SrcEventOut :=
  if event.isReconfigure || event.hasName upstreamEventName then
    let wrapped := UpEvent.wrap upstreamEventName event
    ⟨us.acceptEvent wrapped, [wrapped], none⟩
  else
    ⟨us.defaultResult event, [], some event⟩

/-- The reserved name of the query-tunnel envelope used by `sink_query`. -/
def forwardQueryName : String := "gst-original-buffer-forward-query"

/-- `OriginalBufferRestore::sink_query`: a custom query whose structure is
named `forwardQueryName` and carries a `"query"` field has that embedded
query issued to the peer of the src pad (`self.src_pad.peer_query`); the
(possibly mutated) query is stored back into `"query"`, the peer's boolean
answer into `"result"`, and the handler returns `true`. Every other query
gets `gst::Pad::query_default`. -/
def sink_query (ds : Downstream) (q : QueryKind) : QueryOut :=
  match q with
  | .custom name (some embedded) _ =>
      if name == forwardQueryName then
        let pq := ds.peerQuery embedded
        ⟨true, .custom name (some pq.1) (some pq.2)⟩
      else
        ds.queryDefault q
  | _ => ds.queryDefault q

/-- The per-meta step of the loop in `sink_chain`: which meta (if any) the
iteration attaches to the output buffer for one incoming meta. The identity
meta itself (matched by API) and metas tagged `Memory`/`MemoryReference` are
skipped; a `Size`-tagged meta, when both cached video infos exist and their
dimensions differ, is given the scale transform
`VideoMetaTransformScale::new(sink_vinfo, meta_vinfo)` (success iff the meta
supports scaling); in every other case — and when the scale attempt fails —
the generic `MetaTransformCopy` is attempted (success iff the meta supports
copying), and a failed transform just attaches nothing. -/
def transformMeta (st : State) (m : Meta) : Option Meta :=
  if m.api = originalBufferMetaApi then none
  else if m.tags.contains MetaTag.Memory || m.tags.contains MetaTag.MemoryReference then
    none
  else
    match st.meta_caps.vinfo, st.sinkpad_caps.vinfo with
    | some meta_vinfo, some sink_vinfo =>
        if m.tags.contains MetaTag.Size
            && (meta_vinfo.width != sink_vinfo.width
                || meta_vinfo.height != sink_vinfo.height)
            && m.supportsScale then
          some (m.scale sink_vinfo meta_vinfo)
        else if m.supportsCopy then some m else none
    | _, _ => if m.supportsCopy then some m else none

/-- The reconstructed output buffer of `sink_chain` (after the caps slot has
been reconciled, so `st` is the updated state): a copy of the original
buffer, with timing and flags copied in from the incoming buffer, plus the
transformed metas of the incoming buffer. -/
def restoredBuffer (st : State) (inbuf : Buffer) (om : OriginalBufferMeta) : Buffer :=
  let base := Buffer.copy_into inbuf om.original.copy
  { base with metas := base.metas ++ inbuf.metas.filterMap (transformMeta st) }

/-- Tail of `sink_chain` after the segment flush: push the incoming buffer on
the auxiliary pad when requested (result ignored), then push the
reconstructed buffer on the primary pad; the push's flow result is the
operation's result. -/
def chainFinish (ds : Downstream) (st : State) (inbuf outbuf : Buffer)
    (items : List SrcItem) : ChainOut :=
  ⟨ds.bufferRet outbuf, st,
   items ++ [.buffer outbuf],
   if st.modified_src_pad_requested then [.buffer inbuf] else []⟩

/-- Middle of `sink_chain` after the caps reconciliation: build the
reconstructed buffer, then flush the pending segment (`take()` clears it even
when the push fails; a failed segment push aborts with `FlowError::Error`). -/
def chainAfterCaps (ds : Downstream) (st : State) (inbuf : Buffer)
    (om : OriginalBufferMeta) (items : List SrcItem) : ChainOut :=
  let outbuf := restoredBuffer st inbuf om
  match st.sinkpad_segment with
  | some seg =>
      let st2 := { st with sinkpad_segment := none }
      if ds.acceptSegment seg then
        chainFinish ds st2 inbuf outbuf (items ++ [.segmentEvent seg])
      else
        ⟨.err .error, st2, items ++ [.segmentEvent seg], []⟩
  | none => chainFinish ds st inbuf outbuf items

/-- `OriginalBufferRestore::sink_chain`: a buffer without the identity meta
returns `Ok` at once (nothing is pushed, nothing changes); otherwise the meta
caps are compared with the cached `meta_caps` slot and, when they differ, a
caps event is pushed on the primary pad first — a rejected caps push returns
`FlowError::NotNegotiated` with the slot untouched, an accepted one updates
the slot and its derived video info — and processing continues with
`chainAfterCaps`. -/
def sink_chain (ds : Downstream) (st : State) (inbuf : Buffer) : ChainOut :=
  match inbuf.ometa with
  | none => ⟨.ok, st, [], []⟩
  | some om =>
      if st.meta_caps.caps = om.caps then
        chainAfterCaps ds st inbuf om []
      else if ds.acceptCaps om.caps then
        chainAfterCaps ds
          { st with meta_caps := ⟨om.caps, VideoInfo.from_caps om.caps⟩ }
          inbuf om [.capsEvent om.caps]
      else
        ⟨.err .notNegotiated, st, [.capsEvent om.caps], []⟩

/-- Sequential processing of a list of incoming buffers, accumulating the
items pushed on the primary pad. -/
def runChain (ds : Downstream) (st : State) : List Buffer → State × List SrcItem
  | [] => (st, [])
  | b :: rest =>
      let out := sink_chain ds st b
      let r := runChain ds out.state rest
      (r.1, out.srcItems ++ r.2)

/-- The stream id used by the stream-start event that `request_new_pad`
installs on the freshly created auxiliary pad. -/
def streamStartId : String := "originalbufferrestore"

/-- Element-level state: the `State` struct plus the auxiliary pad, modelled
as `none` while not created and as the ordered list of items pushed on it
once created. -/
structure ElementState where
  st : State
  modPad : Option (List ModItem)
deriving DecidableEq, Repr

/-- The element right after construction. -/
def ElementState.initial : ElementState := ⟨State.init, none⟩

/-- `OriginalBufferRestore::request_new_pad`: only the `"modified_src"`
template is served; a request while `modified_src_pad_requested` is already
set is rejected (`None`, state untouched); otherwise the flag is set, the pad
is created and a stream-start event is pushed on it before it is exposed.
The first component is the created pad's initial item trace (`none` when the
request was rejected). -/
def request_new_pad (es : ElementState) (templ : String) :
    Option (List ModItem) × ElementState :=
  if templ == "modified_src" then
    if es.st.modified_src_pad_requested then (none, es)
    else
      (some [ModItem.streamStart streamStartId],
       ⟨{ es.st with modified_src_pad_requested := true },
        some [ModItem.streamStart streamStartId]⟩)
  else (none, es)

/-- Append items to the auxiliary pad's trace (pushes are dropped while the
pad does not exist). -/
def pushMod : Option (List ModItem) → List ModItem → Option (List ModItem)
  | none, _ => none
  | some t, items => some (t ++ items)

/-- One externally triggered operation on the element. -/
inductive Op
  | requestPad (templ : String)
  | sinkEvent (e : SinkEvent)
  | chain (b : Buffer)

/-- Element-level step: dispatch one operation and record what it pushed on
the auxiliary pad. -/
def stepOp (ds : Downstream) (es : ElementState) (op : Op) : ElementState :=
  match op with
  | .requestPad t => (request_new_pad es t).2
  | .sinkEvent e =>
      let out := sink_event ds es.st e
      ⟨out.state, pushMod es.modPad out.modItems⟩
  | .chain b =>
      let out := sink_chain ds es.st b
      ⟨out.state, pushMod es.modPad out.modItems⟩

/-- Run a list of operations from a given element state. -/
def runOps (ds : Downstream) (es : ElementState) (ops : List Op) : ElementState :=
  ops.foldl (stepOp ds) es

/-- Is a src-pad item a caps event? -/
def SrcItem.isCaps : SrcItem → Bool
  | .capsEvent _ => true
  | _ => false

/-- Is a src-pad item a segment event? -/
def SrcItem.isSegment : SrcItem → Bool
  | .segmentEvent _ => true
  | _ => false

/-- Number of caps events in a src-pad item list. -/
def countCapsEvents (items : List SrcItem) : Nat := items.countP SrcItem.isCaps

/-- Number of segment events in a src-pad item list. -/
def countSegmentEvents (items : List SrcItem) : Nat := items.countP SrcItem.isSegment

/-! Concrete fixtures used by witnesses and counterexamples. -/

/-- A downstream peer that accepts every push, answers a peer query by
bumping its id and returning `true`, and whose default query handling leaves
the query alone and returns `false`. -/
def dsAll : Downstream :=
  ⟨fun _ => true, fun _ => true, fun _ => true, fun _ => .ok,
   fun q => (⟨q.id + 1⟩, true), fun q => ⟨false, q⟩⟩

/-- A downstream peer that rejects caps events and otherwise behaves like
`dsAll`. -/
def dsRejectCaps : Downstream :=
  { dsAll with acceptCaps := fun _ => false }

/-- A downstream peer that rejects segment events and otherwise behaves like
`dsAll`. -/
def dsRejectSegment : Downstream :=
  { dsAll with acceptSegment := fun _ => false }

/-- An upstream peer accepting every event. -/
def usAll : Upstream := ⟨fun _ => true, fun _ => true⟩

/-- A concrete caps with 1280x720 video info. -/
def capsF : Caps := ⟨5, some ⟨1280, 720⟩⟩

/-- A concrete original buffer. -/
def origB : OrigBuffer := ⟨[1, 2, 3], some 10, some 9, some 5, 0, []⟩

/-- A concrete identity meta carrying `origB` under `capsF`. -/
def omF : OriginalBufferMeta := ⟨origB, capsF⟩

/-- A concrete transformed buffer carrying the identity meta. -/
def inbufMeta : Buffer := ⟨[9, 9], some 100, some 90, some 33, 7, [], some omF⟩

/-- A concrete buffer without identity meta. -/
def bufNoMeta : Buffer := ⟨[4, 5, 6], some 1, none, none, 0, [], none⟩

/-! Helper lemmas about the item counters. -/

@[simp] theorem countCapsEvents_nil : countCapsEvents [] = 0 := rfl

@[simp] theorem countCapsEvents_append (l₁ l₂ : List SrcItem) :
    countCapsEvents (l₁ ++ l₂) = countCapsEvents l₁ + countCapsEvents l₂ :=
  List.countP_append _ _ _

@[simp] theorem countCapsEvents_capsEvent (c : Caps) (l : List SrcItem) :
    countCapsEvents (SrcItem.capsEvent c :: l) = countCapsEvents l + 1 := by
  simp [countCapsEvents, List.countP_cons, SrcItem.isCaps]

@[simp] theorem countCapsEvents_segmentEvent (s : SegmentEvent) (l : List SrcItem) :
    countCapsEvents (SrcItem.segmentEvent s :: l) = countCapsEvents l := by
  simp [countCapsEvents, List.countP_cons, SrcItem.isCaps]

@[simp] theorem countCapsEvents_buffer (b : Buffer) (l : List SrcItem) :
    countCapsEvents (SrcItem.buffer b :: l) = countCapsEvents l := by
  simp [countCapsEvents, List.countP_cons, SrcItem.isCaps]

@[simp] theorem countSegmentEvents_nil : countSegmentEvents [] = 0 := rfl

@[simp] theorem countSegmentEvents_append (l₁ l₂ : List SrcItem) :
    countSegmentEvents (l₁ ++ l₂) = countSegmentEvents l₁ + countSegmentEvents l₂ :=
  List.countP_append _ _ _

@[simp] theorem countSegmentEvents_capsEvent (c : Caps) (l : List SrcItem) :
    countSegmentEvents (SrcItem.capsEvent c :: l) = countSegmentEvents l := by
  simp [countSegmentEvents, List.countP_cons, SrcItem.isSegment]

@[simp] theorem countSegmentEvents_segmentEvent (s : SegmentEvent) (l : List SrcItem) :
    countSegmentEvents (SrcItem.segmentEvent s :: l) = countSegmentEvents l + 1 := by
  simp [countSegmentEvents, List.countP_cons, SrcItem.isSegment]

@[simp] theorem countSegmentEvents_buffer (b : Buffer) (l : List SrcItem) :
    countSegmentEvents (SrcItem.buffer b :: l) = countSegmentEvents l := by
  simp [countSegmentEvents, List.countP_cons, SrcItem.isSegment]

/-! Structural lemmas about `sink_chain`. -/

/-- Whatever `chainAfterCaps` pushes beyond the caps items contains no caps
event, only segment events taken from the pending slot, and it never touches
the `meta_caps` slot. -/
theorem chainAfterCaps_srcItems_shape (ds : Downstream) (st : State) (inbuf : Buffer)
    (om : OriginalBufferMeta) (items : List SrcItem) :
    ∃ tail, (chainAfterCaps ds st inbuf om items).srcItems = items ++ tail
      ∧ countCapsEvents tail = 0
      ∧ (∀ s, SrcItem.segmentEvent s ∈ tail → st.sinkpad_segment = some s)
      ∧ (chainAfterCaps ds st inbuf om items).state.meta_caps = st.meta_caps := by
  unfold chainAfterCaps chainFinish
  cases h : st.sinkpad_segment with
  | none =>
      exact ⟨[.buffer (restoredBuffer st inbuf om)], by simp, by simp, by simp, rfl⟩
  | some seg =>
      by_cases hacc : ds.acceptSegment seg
      · refine ⟨[.segmentEvent seg, .buffer (restoredBuffer st inbuf om)], ?_, by simp, ?_, ?_⟩
        · simp [hacc]
        · intro s hs
          simp at hs
          simp [hs]
        · simp [hacc]
      · refine ⟨[.segmentEvent seg], ?_, by simp, ?_, ?_⟩
        · simp [hacc]
        · intro s hs
          simp at hs
          simp [hs]
        · simp [hacc]

/-- When the downstream peer accepts segment pushes, `chainAfterCaps` pushes
(after the caps items) the pending segment if any, then the reconstructed
buffer; the pending slot ends cleared and the flow result is the buffer
push's result. -/
theorem chainAfterCaps_success (ds : Downstream) (st : State) (inbuf : Buffer)
    (om : OriginalBufferMeta) (items : List SrcItem)
    (hseg : ∀ s, ds.acceptSegment s = true) :
    ∃ pre, (chainAfterCaps ds st inbuf om items).srcItems
        = items ++ pre ++ [.buffer (restoredBuffer st inbuf om)]
      ∧ ((st.sinkpad_segment = none ∧ pre = []) ∨
         (∃ s, st.sinkpad_segment = some s ∧ pre = [.segmentEvent s]))
      ∧ (chainAfterCaps ds st inbuf om items).state.sinkpad_segment = none
      ∧ (chainAfterCaps ds st inbuf om items).ret
          = ds.bufferRet (restoredBuffer st inbuf om) := by
  unfold chainAfterCaps chainFinish
  cases h : st.sinkpad_segment with
  | none => exact ⟨[], by simp, Or.inl ⟨rfl, rfl⟩, h, rfl⟩
  | some seg =>
      refine ⟨[.segmentEvent seg], ?_, Or.inr ⟨seg, rfl, rfl⟩, ?_, ?_⟩ <;>
        simp [hseg seg]

/-- Every caps event `sink_chain` pushes on the primary pad carries the caps
stored in the incoming buffer's identity meta. -/
theorem sink_chain_capsEvent_mem (ds : Downstream) (st : State) (b : Buffer) (c : Caps)
    (h : SrcItem.capsEvent c ∈ (sink_chain ds st b).srcItems) :
    ∃ om, b.ometa = some om ∧ om.caps = c := by
  cases hb : b.ometa with
  | none => simp only [sink_chain, hb] at h; simp at h
  | some om =>
      simp only [sink_chain, hb] at h
      refine ⟨om, rfl, ?_⟩
      by_cases heq : st.meta_caps.caps = om.caps
      · rw [if_pos heq] at h
        obtain ⟨tail, hitems, hcnt, -, -⟩ := chainAfterCaps_srcItems_shape ds st b om []
        rw [hitems] at h
        simp at h
        have := (List.countP_eq_zero.mp hcnt) _ h
        simp [SrcItem.isCaps] at this
      · rw [if_neg heq] at h
        by_cases hacc : ds.acceptCaps om.caps
        · rw [if_pos hacc] at h
          obtain ⟨tail, hitems, hcnt, -, -⟩ :=
            chainAfterCaps_srcItems_shape ds
              { st with meta_caps := ⟨om.caps, VideoInfo.from_caps om.caps⟩ } b om
              [.capsEvent om.caps]
          rw [hitems] at h
          rcases List.mem_append.mp h with h1 | h2
          · simp at h1
            exact h1.symm
          · have := (List.countP_eq_zero.mp hcnt) _ h2
            simp [SrcItem.isCaps] at this
        · rw [if_neg hacc] at h
          simp at h
          exact h.symm

/-- Every segment event `sink_chain` pushes on the primary pad is the one
stored in the pending slot when the call began. -/
theorem sink_chain_segmentEvent_mem (ds : Downstream) (st : State) (b : Buffer)
    (s : SegmentEvent)
    (h : SrcItem.segmentEvent s ∈ (sink_chain ds st b).srcItems) :
    st.sinkpad_segment = some s := by
  cases hb : b.ometa with
  | none => simp only [sink_chain, hb] at h; simp at h
  | some om =>
      simp only [sink_chain, hb] at h
      by_cases heq : st.meta_caps.caps = om.caps
      · rw [if_pos heq] at h
        obtain ⟨tail, hitems, -, hmem, -⟩ := chainAfterCaps_srcItems_shape ds st b om []
        rw [hitems] at h
        simp at h
        exact hmem s h
      · rw [if_neg heq] at h
        by_cases hacc : ds.acceptCaps om.caps
        · rw [if_pos hacc] at h
          obtain ⟨tail, hitems, -, hmem, -⟩ :=
            chainAfterCaps_srcItems_shape ds
              { st with meta_caps := ⟨om.caps, VideoInfo.from_caps om.caps⟩ } b om
              [.capsEvent om.caps]
          rw [hitems] at h
          rcases List.mem_append.mp h with h1 | h2
          · simp at h1
          · exact hmem s h2
        · rw [if_neg hacc] at h
          simp at h

/-! Claim C1. -/

/-- C1 counterexample: a unit without Identity Metadata is NOT passed through
on the primary output — the downstream peer receives nothing at all (the code
returns `Ok` without pushing the buffer, dropping it). -/
theorem c1_passthrough_counterexample :
    ¬ (SrcItem.buffer bufNoMeta ∈ (sink_chain dsAll State.init bufNoMeta).srcItems) := by
  decide

/-- C1 (amended): for every incoming unit carrying no Identity Metadata,
`sink_chain` returns a success flow result and leaves the whole state (both
format-cache slots, the pending boundary marker, the auxiliary-port flag)
unchanged, but pushes nothing on either output: the unit is discarded, not
forwarded. -/
theorem c1_no_meta_drops (ds : Downstream) (st : State) (b : Buffer)
    (h : b.ometa = none) :
    sink_chain ds st b = ⟨.ok, st, [], []⟩ := by
  simp only [sink_chain, h]

/-- Witness for C1 at a concrete meta-less buffer. -/
theorem c1_no_meta_drops_witness :
    sink_chain dsAll State.init bufNoMeta = ⟨.ok, State.init, [], []⟩ :=
  c1_no_meta_drops dsAll State.init bufNoMeta rfl

/-! Claim C6. -/

/-- C6: when the incoming unit's carried format differs from the cached
`meta_caps` slot and the downstream peer rejects the caps announcement,
`sink_chain` fails with `NotNegotiated` and the whole state — in particular
the metadata-format cache slot — is left exactly as it was; only the rejected
announcement was attempted, nothing else was pushed. -/
theorem c6_caps_rejected (ds : Downstream) (st : State) (inbuf : Buffer)
    (om : OriginalBufferMeta)
    (hm : inbuf.ometa = some om)
    (hne : st.meta_caps.caps ≠ om.caps)
    (hrej : ds.acceptCaps om.caps = false) :
    sink_chain ds st inbuf = ⟨.err .notNegotiated, st, [.capsEvent om.caps], []⟩ := by
  simp only [sink_chain, hm]
  rw [if_neg hne]
  simp [hrej]

/-- Witness for C6 at a concrete rejecting downstream. -/
theorem c6_caps_rejected_witness :
    sink_chain dsRejectCaps State.init inbufMeta
      = ⟨.err .notNegotiated, State.init, [.capsEvent capsF], []⟩ :=
  c6_caps_rejected dsRejectCaps State.init inbufMeta omF rfl (by decide) rfl

/-! Claim C10. -/

/-- C10: a caps event on the control input is stored into the control-input
format slot (with its derived video info), a segment event is stored as the
pending boundary marker; both are re-forwarded to the auxiliary pad exactly
when it was requested, return success, and push nothing on the primary
output. Conversely, every caps event the primary output ever receives from
`sink_chain` carries the caps of the consumed Identity Metadata, and every
segment event it receives is the stored pending marker being flushed. -/
theorem c10_control_events (ds : Downstream) (st : State) (c : Caps) (s : SegmentEvent)
    (b : Buffer) (c2 : Caps) (s2 : SegmentEvent) :
    (sink_event ds st (.caps c)
      = ⟨true, { st with sinkpad_caps := ⟨c, VideoInfo.from_caps c⟩ }, [],
         if st.modified_src_pad_requested then [.capsEvent c] else []⟩)
    ∧ (sink_event ds st (.segment s)
      = ⟨true, { st with sinkpad_segment := some s }, [],
         if st.modified_src_pad_requested then [.segmentEvent s] else []⟩)
    ∧ (SrcItem.capsEvent c2 ∈ (sink_chain ds st b).srcItems →
         ∃ om, b.ometa = some om ∧ om.caps = c2)
    ∧ (SrcItem.segmentEvent s2 ∈ (sink_chain ds st b).srcItems →
         st.sinkpad_segment = some s2) :=
  ⟨rfl, rfl, sink_chain_capsEvent_mem ds st b c2, sink_chain_segmentEvent_mem ds st b s2⟩

/-- Witness for C10 at concrete inputs: the concrete caps event is stored and
kept off the primary output, and the concrete reconstruction's caps
announcement indeed came from the identity meta. -/
theorem c10_control_events_witness :
    (sink_event dsAll State.init (.caps capsF)
      = ⟨true, { State.init with sinkpad_caps := ⟨capsF, VideoInfo.from_caps capsF⟩ }, [],
         []⟩)
    ∧ (∃ om, inbufMeta.ometa = some om ∧ om.caps = capsF) := by
  have h := c10_control_events dsAll State.init capsF ⟨0⟩ inbufMeta capsF ⟨0⟩
  exact ⟨by simpa using h.1, h.2.2.1 (by decide)⟩

/-! Claim C2. -/

/-- C2: when the incoming unit carries Identity Metadata with original O and
the downstream peer accepts the pushes, the unit pushed last on the primary
output is the reconstruction: its content bytes are O's, while its
timestamps (pts, dts, duration) and buffer flags equal those of the incoming
transformed unit. -/
theorem c2_timing_transplant (ds : Downstream) (st : State) (inbuf : Buffer)
    (om : OriginalBufferMeta)
    (hm : inbuf.ometa = some om)
    (hcaps : ds.acceptCaps om.caps = true)
    (hseg : ∀ s, ds.acceptSegment s = true) :
    ∃ b, (sink_chain ds st inbuf).srcItems.getLast? = some (.buffer b)
      ∧ b.content = om.original.content
      ∧ b.pts = inbuf.pts ∧ b.dts = inbuf.dts ∧ b.duration = inbuf.duration
      ∧ b.flags = inbuf.flags := by
  simp only [sink_chain, hm]
  by_cases heq : st.meta_caps.caps = om.caps
  · rw [if_pos heq]
    obtain ⟨pre, hitems, -, -, -⟩ := chainAfterCaps_success ds st inbuf om [] hseg
    refine ⟨restoredBuffer st inbuf om, ?_, rfl, rfl, rfl, rfl, rfl⟩
    rw [hitems]
    simp
  · rw [if_neg heq, if_pos hcaps]
    set st2 : State := { st with meta_caps := ⟨om.caps, VideoInfo.from_caps om.caps⟩ }
    obtain ⟨pre, hitems, -, -, -⟩ :=
      chainAfterCaps_success ds st2 inbuf om [.capsEvent om.caps] hseg
    refine ⟨restoredBuffer st2 inbuf om, ?_, rfl, rfl, rfl, rfl, rfl⟩
    rw [hitems]
    exact List.getLast?_concat _

/-- Witness for C2 at a concrete transformed buffer whose content differs
from the original's. -/
theorem c2_timing_transplant_witness :
    ∃ b, (sink_chain dsAll State.init inbufMeta).srcItems.getLast? = some (.buffer b)
      ∧ b.content = omF.original.content
      ∧ b.pts = inbufMeta.pts ∧ b.dts = inbufMeta.dts
      ∧ b.duration = inbufMeta.duration
      ∧ b.flags = inbufMeta.flags :=
  c2_timing_transplant dsAll State.init inbufMeta omF rfl rfl (fun _ => rfl)

/-! Claim C3. -/

/-- A unit whose meta caps equal the cached slot triggers no caps event and
leaves the slot untouched. -/
theorem sink_chain_same_caps (ds : Downstream) (st : State) (b : Buffer)
    (om : OriginalBufferMeta) (hm : b.ometa = some om)
    (heq : st.meta_caps.caps = om.caps) :
    countCapsEvents (sink_chain ds st b).srcItems = 0
      ∧ (sink_chain ds st b).state.meta_caps = st.meta_caps := by
  simp only [sink_chain, hm]
  rw [if_pos heq]
  obtain ⟨tail, hitems, hcnt, -, hstate⟩ := chainAfterCaps_srcItems_shape ds st b om []
  exact ⟨by rw [hitems]; simp [hcnt], hstate⟩

/-- A unit whose meta caps differ from the cached slot triggers exactly one
(accepted) caps event and updates the slot. -/
theorem sink_chain_new_caps (ds : Downstream) (st : State) (b : Buffer)
    (om : OriginalBufferMeta) (hm : b.ometa = some om)
    (hne : st.meta_caps.caps ≠ om.caps) (hacc : ds.acceptCaps om.caps = true) :
    countCapsEvents (sink_chain ds st b).srcItems = 1
      ∧ (sink_chain ds st b).state.meta_caps
          = ⟨om.caps, VideoInfo.from_caps om.caps⟩ := by
  simp only [sink_chain, hm]
  rw [if_neg hne, if_pos hacc]
  obtain ⟨tail, hitems, hcnt, -, hstate⟩ :=
    chainAfterCaps_srcItems_shape ds
      { st with meta_caps := ⟨om.caps, VideoInfo.from_caps om.caps⟩ } b om
      [.capsEvent om.caps]
  exact ⟨by rw [hitems]; simp [hcnt], by rw [hstate]⟩

/-- Once the cached slot holds `F`, a run of units all carrying `F` emits no
caps event and keeps the slot at `F`. -/
theorem runChain_same_caps (ds : Downstream) (F : Caps) (bufs : List Buffer) :
    ∀ st : State, st.meta_caps.caps = F →
      (∀ b ∈ bufs, ∃ om, b.ometa = some om ∧ om.caps = F) →
      countCapsEvents (runChain ds st bufs).2 = 0
        ∧ (runChain ds st bufs).1.meta_caps.caps = F := by
  induction bufs with
  | nil => intro st hF _; simp [runChain, hF]
  | cons b rest ih =>
      intro st hF hall
      obtain ⟨om, hom, homc⟩ := hall b (by simp)
      have h1 := sink_chain_same_caps ds st b om hom (by rw [hF, homc])
      have h2 := ih (sink_chain ds st b).state
        (by rw [h1.2, hF]) (fun b2 hb => hall b2 (by simp [hb]))
      constructor
      · simp [runChain, h1.1, h2.1]
      · simp [runChain, h2.2]

/-- C3: over a sequence of consumed units all carrying the same format `F`
(accepted downstream), exactly one caps announcement is emitted on the
primary output when the cached metadata-format slot starts different from
`F`, and none at all when the slot already holds `F` — an announcement
happens only on a difference, and the updated slot silences later units. -/
theorem c3_announce_once (ds : Downstream) (st : State) (bufs : List Buffer) (F : Caps)
    (hne : bufs ≠ [])
    (hall : ∀ b ∈ bufs, ∃ om, b.ometa = some om ∧ om.caps = F)
    (hacc : ds.acceptCaps F = true) :
    (st.meta_caps.caps ≠ F → countCapsEvents (runChain ds st bufs).2 = 1)
    ∧ (st.meta_caps.caps = F → countCapsEvents (runChain ds st bufs).2 = 0) := by
  cases bufs with
  | nil => exact absurd rfl hne
  | cons b rest =>
      obtain ⟨om, hom, homc⟩ := hall b (by simp)
      constructor
      · intro hneF
        have h1 := sink_chain_new_caps ds st b om hom
          (by rw [homc]; exact hneF) (by rw [homc]; exact hacc)
        have h2 := runChain_same_caps ds F rest (sink_chain ds st b).state
          (by rw [h1.2]; exact homc) (fun b2 hb => hall b2 (by simp [hb]))
        simp [runChain, h1.1, h2.1]
      · intro hF
        exact (runChain_same_caps ds F (b :: rest) st hF hall).1

/-- Witness for C3: two consecutive units with the same concrete meta caps
produce exactly one caps announcement. -/
theorem c3_announce_once_witness :
    countCapsEvents (runChain dsAll State.init [inbufMeta, inbufMeta]).2 = 1 :=
  (c3_announce_once dsAll State.init [inbufMeta, inbufMeta] capsF
    (by simp)
    (by
      intro b hb
      simp [List.mem_cons] at hb
      subst hb
      exact ⟨omF, rfl, rfl⟩)
    rfl).1 (by decide)

/-! Claim C5. -/

/-- `sink_chain` on a call that starts with no pending boundary marker never
pushes a segment event. -/
theorem sink_chain_no_pending_no_segment (ds : Downstream) (st : State) (b : Buffer)
    (hnone : st.sinkpad_segment = none) :
    countSegmentEvents (sink_chain ds st b).srcItems = 0 :=
  List.countP_eq_zero.mpr (by
    intro a ha
    cases a with
    | segmentEvent s2 =>
        exact absurd (sink_chain_segmentEvent_mem ds st b s2 ha) (by simp [hnone])
    | capsEvent c => simp [SrcItem.isSegment]
    | buffer b2 => simp [SrcItem.isSegment]
    | otherEvent i => simp [SrcItem.isSegment])

/-- When the pending marker fails to forward, the whole chain call fails with
the generic error. -/
theorem chainAfterCaps_segment_fail (ds : Downstream) (st : State) (inbuf : Buffer)
    (om : OriginalBufferMeta) (items : List SrcItem) (s : SegmentEvent)
    (hpend : st.sinkpad_segment = some s) (hrej : ds.acceptSegment s = false) :
    (chainAfterCaps ds st inbuf om items).ret = .err .error := by
  unfold chainAfterCaps
  cases h : st.sinkpad_segment with
  | none => rw [h] at hpend; cases hpend
  | some seg =>
      rw [h] at hpend
      injection hpend with hseg
      subst hseg
      simp [hrej]

/-- C5: a boundary-range (segment) notification on the control input is
stored as the single pending marker, overwriting any prior one, with nothing
pushed on the primary output at that moment; on the next successfully
reconstructed unit it is forwarded exactly once, immediately before the
reconstructed buffer, and cleared; a chain call that starts with no pending
marker forwards no segment at all; and a failed forwarding of the pending
marker is fatal for that unit with a generic error. -/
theorem c5_boundary_marker (ds : Downstream) (st : State) (s : SegmentEvent)
    (inbuf : Buffer) (om : OriginalBufferMeta)
    (hm : inbuf.ometa = some om)
    (hcaps : ds.acceptCaps om.caps = true) :
    ((sink_event ds st (.segment s)).state.sinkpad_segment = some s
       ∧ (sink_event ds st (.segment s)).srcItems = [])
    ∧ (st.sinkpad_segment = some s → (∀ s2, ds.acceptSegment s2 = true) →
        ∃ p b, (sink_chain ds st inbuf).srcItems = p ++ [.segmentEvent s, .buffer b]
          ∧ countSegmentEvents p = 0
          ∧ countSegmentEvents (sink_chain ds st inbuf).srcItems = 1
          ∧ (sink_chain ds st inbuf).state.sinkpad_segment = none)
    ∧ (st.sinkpad_segment = none →
        countSegmentEvents (sink_chain ds st inbuf).srcItems = 0)
    ∧ (st.sinkpad_segment = some s → ds.acceptSegment s = false →
        (sink_chain ds st inbuf).ret = .err .error) := by
  refine ⟨⟨rfl, rfl⟩, ?_, fun hnone => sink_chain_no_pending_no_segment ds st inbuf hnone, ?_⟩
  · intro hpend hsegacc
    simp only [sink_chain, hm]
    by_cases heq : st.meta_caps.caps = om.caps
    · rw [if_pos heq]
      obtain ⟨pre, hitems, hdisj, hafter, -⟩ :=
        chainAfterCaps_success ds st inbuf om [] hsegacc
      rcases hdisj with ⟨h0, -⟩ | ⟨s2, hs2, hpre⟩
      · rw [h0] at hpend; cases hpend
      · rw [hpend] at hs2
        injection hs2 with hs2'
        subst hs2'
        subst hpre
        exact ⟨[], restoredBuffer st inbuf om, by simpa using hitems, by simp,
          by rw [hitems]; simp, hafter⟩
    · rw [if_neg heq, if_pos hcaps]
      set st2 : State := { st with meta_caps := ⟨om.caps, VideoInfo.from_caps om.caps⟩ }
      obtain ⟨pre, hitems, hdisj, hafter, -⟩ :=
        chainAfterCaps_success ds st2 inbuf om [.capsEvent om.caps] hsegacc
      rcases hdisj with ⟨h0, -⟩ | ⟨s2, hs2, hpre⟩
      · rw [show st2.sinkpad_segment = st.sinkpad_segment from rfl, hpend] at h0
        cases h0
      · rw [show st2.sinkpad_segment = st.sinkpad_segment from rfl, hpend] at hs2
        injection hs2 with hs2'
        subst hs2'
        subst hpre
        exact ⟨[.capsEvent om.caps], restoredBuffer st2 inbuf om,
          by simpa using hitems, by simp, by rw [hitems]; simp, hafter⟩
  · intro hpend hrej
    simp only [sink_chain, hm]
    by_cases heq : st.meta_caps.caps = om.caps
    · rw [if_pos heq]
      exact chainAfterCaps_segment_fail ds st inbuf om [] s hpend hrej
    · rw [if_neg heq, if_pos hcaps]
      exact chainAfterCaps_segment_fail ds
        { st with meta_caps := ⟨om.caps, VideoInfo.from_caps om.caps⟩ } inbuf om
        [.capsEvent om.caps] s hpend hrej

/-- A state with a concrete pending boundary marker. -/
def stSeg : State := { State.init with sinkpad_segment := some ⟨42⟩ }

/-- Witness for C5 at concrete inputs: the marker is stored by the event
handler, flushed immediately before the concrete reconstructed buffer, absent
from a markerless chain call, and fatal when its forwarding is rejected. -/
theorem c5_boundary_marker_witness :
    ((sink_event dsAll stSeg (.segment ⟨42⟩)).state.sinkpad_segment = some ⟨42⟩)
    ∧ (∃ p b, (sink_chain dsAll stSeg inbufMeta).srcItems
          = p ++ [.segmentEvent ⟨42⟩, .buffer b]
        ∧ countSegmentEvents p = 0
        ∧ (sink_chain dsAll stSeg inbufMeta).state.sinkpad_segment = none)
    ∧ countSegmentEvents (sink_chain dsAll State.init inbufMeta).srcItems = 0
    ∧ (sink_chain dsRejectSegment stSeg inbufMeta).ret = .err .error := by
  have h1 := c5_boundary_marker dsAll stSeg ⟨42⟩ inbufMeta omF rfl rfl
  have h2 := c5_boundary_marker dsAll State.init ⟨42⟩ inbufMeta omF rfl rfl
  have h3 := c5_boundary_marker dsRejectSegment stSeg ⟨42⟩ inbufMeta omF rfl rfl
  obtain ⟨p, b, hp, hc, -, hafter⟩ := h1.2.1 rfl (fun _ => rfl)
  exact ⟨h1.1.1, ⟨p, b, hp, hc, hafter⟩, h2.2.2.1 rfl, h3.2.2.2 rfl rfl⟩

/-! Claim C4. -/

/-- A state whose control-input (sinkpad) caps decode to 640x360 and whose
metadata caps decode to 1280x720. -/
def stC4 : State :=
  ⟨⟨⟨2, some ⟨640, 360⟩⟩, some ⟨640, 360⟩⟩,
   ⟨⟨1, some ⟨1280, 720⟩⟩, some ⟨1280, 720⟩⟩, none, false⟩

/-- A size-tagged annotation with a 100x60 rectangle at (100, 60), supporting
both transforms. -/
def mC4 : Meta := ⟨1, [MetaTag.Size], 100, 60, 100, 60, true, true⟩

/-- A transform-copyable annotation with no size tag. -/
def mCopy : Meta := ⟨1, [], 1, 2, 3, 4, false, true⟩

/-- C4 counterexample: with metadata format 1280x720 and control-input format
640x360, the rescale applied to a size-tagged annotation is NOT the
claimed one from the metadata dimensions to the control-input dimensions
(factor 0.5); the code passes `VideoMetaTransformScale::new(sink_vinfo,
meta_vinfo)`, scaling from the control-input dimensions to the metadata
dimensions (factor 2.0 here). -/
theorem c4_rescale_direction_counterexample :
    transformMeta stC4 mC4 ≠ some (mC4.scale ⟨1280, 720⟩ ⟨640, 360⟩) := by
  decide

/-- C4 (amended): for every annotation on the incoming unit other than the
Identity Metadata itself and memory-tagged annotations: if it is size-tagged
and both derived structural descriptors are available and their dimensions
differ, a geometric rescale from the control-input dimensions to the
metadata dimensions is attempted (metadata 1280x720 and control-input
640x360 scales width/height by 2); otherwise, or when the rescale attempt
fails, a generic copy-transform is attempted, and a failure of either
transform merely skips the annotation and is never fatal to the unit. -/
theorem c4_annotation_transforms (ds : Downstream) (st : State) (m : Meta)
    (mv sv : VideoInfo) :
    (m.api = originalBufferMetaApi → transformMeta st m = none)
    ∧ (m.api ≠ originalBufferMetaApi →
        (m.tags.contains MetaTag.Memory || m.tags.contains MetaTag.MemoryReference) = true →
        transformMeta st m = none)
    ∧ (m.api ≠ originalBufferMetaApi →
        (m.tags.contains MetaTag.Memory || m.tags.contains MetaTag.MemoryReference) = false →
        st.meta_caps.vinfo = some mv → st.sinkpad_caps.vinfo = some sv →
        (m.tags.contains MetaTag.Size
          && (mv.width != sv.width || mv.height != sv.height)
          && m.supportsScale) = true →
        transformMeta st m = some (m.scale sv mv))
    ∧ (m.api ≠ originalBufferMetaApi →
        (m.tags.contains MetaTag.Memory || m.tags.contains MetaTag.MemoryReference) = false →
        st.meta_caps.vinfo = some mv → st.sinkpad_caps.vinfo = some sv →
        (m.tags.contains MetaTag.Size
          && (mv.width != sv.width || mv.height != sv.height)
          && m.supportsScale) = false →
        transformMeta st m = (if m.supportsCopy then some m else none))
    ∧ (m.api ≠ originalBufferMetaApi →
        (m.tags.contains MetaTag.Memory || m.tags.contains MetaTag.MemoryReference) = false →
        (st.meta_caps.vinfo = none ∨ st.sinkpad_caps.vinfo = none) →
        transformMeta st m = (if m.supportsCopy then some m else none))
    ∧ (∀ inbuf om, inbuf.ometa = some om → ds.acceptCaps om.caps = true →
        (∀ s, ds.acceptSegment s = true) → (∀ b, ds.bufferRet b = .ok) →
        (sink_chain ds st inbuf).ret = .ok) := by
  refine ⟨?_, ?_, ?_, ?_, ?_, ?_⟩
  · intro h
    simp [transformMeta, h]
  · intro h1 h2
    simp only [transformMeta]
    rw [if_neg h1, if_pos h2]
  · intro h1 h2 hmv hsv hcond
    simp only [transformMeta]
    rw [if_neg h1, if_neg (by simpa using h2)]
    simp only [hmv, hsv]
    rw [if_pos hcond]
  · intro h1 h2 hmv hsv hcond
    simp only [transformMeta]
    rw [if_neg h1, if_neg (by simpa using h2)]
    simp only [hmv, hsv]
    rw [if_neg (by simpa using hcond)]
  · intro h1 h2 hdisj
    simp only [transformMeta]
    rw [if_neg h1, if_neg (by simpa using h2)]
    cases hmv2 : st.meta_caps.vinfo with
    | none =>
        cases hsv2 : st.sinkpad_caps.vinfo with
        | none => simp only [hmv2, hsv2]
        | some w => simp only [hmv2, hsv2]
    | some v =>
        cases hsv2 : st.sinkpad_caps.vinfo with
        | none => simp only [hmv2, hsv2]
        | some w =>
            rcases hdisj with h | h
            · rw [hmv2] at h; cases h
            · rw [hsv2] at h; cases h
  · intro inbuf om hm hcaps hsegacc hbuf
    simp only [sink_chain, hm]
    by_cases heq : st.meta_caps.caps = om.caps
    · rw [if_pos heq]
      obtain ⟨pre, -, -, -, hret⟩ := chainAfterCaps_success ds st inbuf om [] hsegacc
      rw [hret]
      exact hbuf _
    · rw [if_neg heq, if_pos hcaps]
      obtain ⟨pre, -, -, -, hret⟩ :=
        chainAfterCaps_success ds
          { st with meta_caps := ⟨om.caps, VideoInfo.from_caps om.caps⟩ } inbuf om
          [.capsEvent om.caps] hsegacc
      rw [hret]
      exact hbuf _

/-- Witness for C4 at concrete inputs: the size-tagged annotation is rescaled
from the control-input to the metadata dimensions, a non-size annotation is
copied unscaled, and the chain call itself succeeds. -/
theorem c4_annotation_transforms_witness :
    transformMeta stC4 mC4 = some (mC4.scale ⟨640, 360⟩ ⟨1280, 720⟩)
    ∧ transformMeta stC4 mCopy = some mCopy
    ∧ (sink_chain dsAll State.init inbufMeta).ret = .ok := by
  have h := c4_annotation_transforms dsAll stC4 mC4 ⟨1280, 720⟩ ⟨640, 360⟩
  have h2 := c4_annotation_transforms dsAll stC4 mCopy ⟨1280, 720⟩ ⟨640, 360⟩
  have h3 := c4_annotation_transforms dsAll State.init mC4 ⟨1280, 720⟩ ⟨640, 360⟩
  refine ⟨h.2.2.1 (by decide) (by decide) rfl rfl (by decide), ?_, ?_⟩
  · have hc := h2.2.2.2.1 (by decide) (by decide) rfl rfl (by decide)
    simpa using hc
  · exact h3.2.2.2.2.2 inbufMeta omF rfl rfl (fun _ => rfl) (fun _ => rfl)

/-! Claim C7. -/

/-- A custom query carrying an embedded query under the name the spec gives
for the tunnel envelope. -/
def qC7 : QueryKind := .custom "forward-query" (some ⟨7⟩) none

/-- C7 counterexample: a custom query whose envelope is named
`"forward-query"` is NOT answered by the tunnel path — the code only matches
the name `"gst-original-buffer-forward-query"`, so this query falls through
to default handling instead of coming back with the peer's answer and a
populated result field. -/
theorem c7_tunnel_name_counterexample :
    sink_query dsAll qC7
      ≠ ⟨true, .custom "forward-query" (some (dsAll.peerQuery ⟨7⟩).1)
          (some (dsAll.peerQuery ⟨7⟩).2)⟩ := by
  decide

/-- C7 (amended): a custom query named
`"gst-original-buffer-forward-query"` carrying an embedded query is answered
by issuing the embedded query to the peer of the primary output; the same
envelope comes back with the (possibly mutated) embedded query and a boolean
`"result"` field equal to the answer that peer gave, and the handler returns
`true`. Every query not of that shape gets default handling. -/
theorem c7_query_tunnel (ds : Downstream) (emb : Query) (rf : Option Bool) (q : QueryKind) :
    sink_query ds (.custom forwardQueryName (some emb) rf)
      = ⟨true, .custom forwardQueryName (some (ds.peerQuery emb).1)
          (some (ds.peerQuery emb).2)⟩
    ∧ ((∀ name emb2 rf2, q = QueryKind.custom name (some emb2) rf2 →
          name ≠ forwardQueryName) →
        sink_query ds q = ds.queryDefault q) := by
  constructor
  · simp [sink_query]
  · intro h
    match q with
    | .custom name (some emb2) rf2 =>
        have hne : name ≠ forwardQueryName := h name emb2 rf2 rfl
        simp [sink_query, hne]
    | .custom name none rf2 => rfl
    | .other i => rfl

/-- Witness for C7 at concrete queries: the correctly named envelope is
answered through the peer, the spec-named one falls to default handling. -/
theorem c7_query_tunnel_witness :
    sink_query dsAll (.custom forwardQueryName (some ⟨7⟩) none)
      = ⟨true, .custom forwardQueryName (some (dsAll.peerQuery ⟨7⟩).1)
          (some (dsAll.peerQuery ⟨7⟩).2)⟩
    ∧ sink_query dsAll (.custom "forward-query" (some ⟨7⟩) none)
      = dsAll.queryDefault (.custom "forward-query" (some ⟨7⟩) none) := by
  have h := c7_query_tunnel dsAll ⟨7⟩ none (.custom "forward-query" (some ⟨7⟩) none)
  refine ⟨h.1, h.2 ?_⟩
  intro name emb2 rf2 heq
  injection heq with h1 h2 h3
  subst h1
  decide

/-! Claim C8. -/

/-- C8 counterexample: the envelope pushed upstream for a renegotiation
(`Reconfigure`) notification is NOT named `"forward-upstream-event"` — the
code names it `"gst-original-buffer-forward-upstream-event"`. -/
theorem c8_envelope_name_counterexample :
    (src_event usAll UpEvent.reconfigure).tunneled
      ≠ [UpEvent.wrap "forward-upstream-event" UpEvent.reconfigure] := by
  decide

/-- C8 (amended): an upstream-directed notification on the primary output
that is a renegotiation (`Reconfigure`) notification or an event already
named `"gst-original-buffer-forward-upstream-event"` is wrapped into a custom
upstream envelope of that same name with the original event in its `"event"`
field and pushed to the control input's upstream peer instead of being
handled locally; every other notification gets default handling. -/
theorem c8_event_tunnel (us : Upstream) (e : UpEvent) :
    ((e.isReconfigure || e.hasName upstreamEventName) = true →
      src_event us e
        = ⟨us.acceptEvent (UpEvent.wrap upstreamEventName e),
           [UpEvent.wrap upstreamEventName e], none⟩)
    ∧ ((e.isReconfigure || e.hasName upstreamEventName) = false →
      src_event us e = ⟨us.defaultResult e, [], some e⟩) := by
  constructor <;> intro h <;> simp [src_event, h]

/-- Witness for C8 at concrete events: a `Reconfigure` is tunneled, an
unrelated custom event gets default handling. -/
theorem c8_event_tunnel_witness :
    src_event usAll UpEvent.reconfigure
      = ⟨usAll.acceptEvent (UpEvent.wrap upstreamEventName UpEvent.reconfigure),
         [UpEvent.wrap upstreamEventName UpEvent.reconfigure], none⟩
    ∧ src_event usAll (UpEvent.custom "some-other-event")
      = ⟨usAll.defaultResult (UpEvent.custom "some-other-event"), [],
         some (UpEvent.custom "some-other-event")⟩ :=
  ⟨(c8_event_tunnel usAll UpEvent.reconfigure).1 (by decide),
   (c8_event_tunnel usAll (UpEvent.custom "some-other-event")).2 (by decide)⟩

/-! Claim C9. -/

/-- Appending to an existing auxiliary-pad trace keeps its contents. -/
theorem pushMod_some (o : Option (List ModItem)) (items : List ModItem)
    (t : List ModItem) (h : pushMod o items = some t) :
    ∃ t0, o = some t0 ∧ t = t0 ++ items := by
  cases o with
  | none => cases h
  | some t0 =>
      refine ⟨t0, rfl, ?_⟩
      injection h with h'
      exact h'.symm

/-- A pad request either leaves the auxiliary-pad trace alone or installs the
fresh trace holding exactly the stream-start announcement. -/
theorem request_new_pad_modPad (es : ElementState) (templ : String) :
    (request_new_pad es templ).2.modPad = es.modPad
    ∨ (request_new_pad es templ).2.modPad = some [ModItem.streamStart streamStartId] := by
  unfold request_new_pad
  by_cases h1 : (templ == "modified_src") = true
  · rw [if_pos h1]
    by_cases h2 : es.st.modified_src_pad_requested = true
    · rw [if_pos h2]; exact Or.inl rfl
    · rw [if_neg h2]; exact Or.inr rfl
  · rw [if_neg h1]; exact Or.inl rfl

/-- A first request (flag unset) creates the pad: it returns the fresh trace,
sets the one-shot flag, and installs the stream-start announcement as the
pad's first item. -/
theorem request_new_pad_first (es : ElementState)
    (h : es.st.modified_src_pad_requested = false) :
    request_new_pad es "modified_src"
      = (some [ModItem.streamStart streamStartId],
         ⟨{ es.st with modified_src_pad_requested := true },
          some [ModItem.streamStart streamStartId]⟩) := by
  unfold request_new_pad
  rw [if_pos (by decide), if_neg (by simp [h])]

/-- A request while the flag is set is rejected and changes nothing. -/
theorem request_new_pad_second (es : ElementState)
    (h : es.st.modified_src_pad_requested = true) :
    request_new_pad es "modified_src" = (none, es) := by
  unfold request_new_pad
  rw [if_pos (by decide), if_pos h]

/-- Invariant: along any run of operations, whenever the auxiliary pad
exists, its trace starts with the stream-start announcement. -/
theorem runOps_modPad_head (ds : Downstream) (ops : List Op) :
    ∀ es : ElementState,
      (∀ t, es.modPad = some t → ∃ r, t = ModItem.streamStart streamStartId :: r) →
      ∀ t, (runOps ds es ops).modPad = some t →
        ∃ r, t = ModItem.streamStart streamStartId :: r := by
  induction ops with
  | nil =>
      intro es h t ht
      exact h t (by simpa [runOps] using ht)
  | cons op rest ih =>
      intro es h t ht
      refine ih (stepOp ds es op) ?_ t (by simpa [runOps, List.foldl_cons] using ht)
      intro t2 ht2
      cases op with
      | requestPad templ =>
          rcases request_new_pad_modPad es templ with hsame | hnew
          · exact h t2 (by rw [← hsame]; exact ht2)
          · rw [show (stepOp ds es (Op.requestPad templ)).modPad
                  = (request_new_pad es templ).2.modPad from rfl, hnew] at ht2
            injection ht2 with h'
            exact ⟨[], h'.symm⟩
      | sinkEvent e =>
          obtain ⟨t0, h0, ht0⟩ := pushMod_some _ _ _ ht2
          obtain ⟨r, hr⟩ := h t0 h0
          exact ⟨r ++ (sink_event ds es.st e).modItems, by rw [ht0, hr]; simp⟩
      | chain b =>
          obtain ⟨t0, h0, ht0⟩ := pushMod_some _ _ _ ht2
          obtain ⟨r, hr⟩ := h t0 h0
          exact ⟨r ++ (sink_chain ds es.st b).modItems, by rw [ht0, hr]; simp⟩

/-- C9: the auxiliary output pad is created at most once — the first request
returns the pad and sets the one-shot flag, a second request while the flag
is set is rejected with nothing created and state untouched — and on
creation a stream-start announcement is installed first, so along any run of
operations from a fresh element every item ever delivered on that pad comes
after the initial stream-start announcement. -/
theorem c9_aux_pad_single_creation (ds : Downstream) (es : ElementState) (ops : List Op)
    (hflag : es.st.modified_src_pad_requested = false) :
    (request_new_pad es "modified_src").1 = some [ModItem.streamStart streamStartId]
    ∧ (request_new_pad es "modified_src").2.st.modified_src_pad_requested = true
    ∧ request_new_pad (request_new_pad es "modified_src").2 "modified_src"
        = (none, (request_new_pad es "modified_src").2)
    ∧ (∀ t, (runOps ds ElementState.initial ops).modPad = some t →
        ∃ r, t = ModItem.streamStart streamStartId :: r) := by
  have h1 := request_new_pad_first es hflag
  refine ⟨by rw [h1], by rw [h1], ?_, ?_⟩
  · rw [h1]
    exact request_new_pad_second _ rfl
  · exact runOps_modPad_head ds ops ElementState.initial
      (by intro t ht; simp [ElementState.initial] at ht)

/-- Witness for C9: from a fresh element, the first concrete request creates
the pad, the second is rejected, and after a request followed by a
reconstructed unit the pad's trace is the stream-start announcement followed
by the data unit. -/
theorem c9_aux_pad_single_creation_witness :
    (request_new_pad ElementState.initial "modified_src").1
        = some [ModItem.streamStart streamStartId]
    ∧ request_new_pad (request_new_pad ElementState.initial "modified_src").2
          "modified_src"
        = (none, (request_new_pad ElementState.initial "modified_src").2)
    ∧ ∃ r, [ModItem.streamStart streamStartId, ModItem.buffer inbufMeta]
        = ModItem.streamStart streamStartId :: r := by
  have h := c9_aux_pad_single_creation dsAll ElementState.initial
    [Op.requestPad "modified_src", Op.chain inbufMeta] rfl
  exact ⟨h.1, h.2.2.1, h.2.2.2 _ (by decide)⟩

end OriginalBufferRestore
